import Mathlib

/-!
Verification of the gc_nes_emulator NES core against its specification.

Shallow embedding of the relevant Rust source:
  * `src/gc_nes_core/src/nes/ppu.rs`   — PPU registers, VRAM, OAM, scroll logic,
    frame cadence (`NesPpu`).
  * `src/gc_nes_core/src/nes/mod.rs`   — bus / OAM-DMA state machine (`Nes::cycle`).
  * `src/gc_nes_core/src/input/mod.rs` — controller shift register (`NesInputDevice`).
  * `src/gc_nes_core/src/cartridge/mapper.rs` — MMC3 scanline IRQ (`Mapper004`).
  * `src/src/cartridge/mod.rs`         — ROM size computation (`calculate_rom_size`).

Machine integers are modelled as `Nat` with explicit masking where the Rust code
masks; Rust code paths that `panic!` (or that perform an unchecked arithmetic
operation that overflows in debug builds) are modelled with `Option`, `none`
standing for the panic.
-/

set_option maxRecDepth 10000

/-- Pointwise function update used to model writes into byte arrays. -/
def updFn (f : Nat → Nat) (i v : Nat) : Nat → Nat :=
  fun j => if j = i then v else f j

/-- Modelled from the spec: the nametable mirroring selector of the cartridge
(`gc_nes_core/src/cartridge/mod.rs` is absent from the source tree; spec §3 lists
the variants Horizontal, Vertical, OneScreenLower, OneScreenUpper). -/
inductive Mirroring where
  | Horizontal
  | Vertical
  | OneScreenLower
  | OneScreenUpper
deriving DecidableEq

/-- Modelled from the spec: the cartridge as seen by the PPU
(`gc_nes_core/src/cartridge/mod.rs` is absent from the source tree; spec §3/§4.2:
character memory is held uniformly as writable RAM and reads/writes delegate to
the mapper — the default mapper passes the address straight through, matching the
`Mapper` trait defaults in `src/gc_nes_core/src/cartridge/mapper.rs`). -/
structure Cartridge where
  chr : Nat → Nat
  mirroring : Mirroring

/-- `Cartridge::character_read` via the default mapper: pass-through. -/
def Cartridge.character_read (c : Cartridge) (address : Nat) : Nat :=
  c.chr address

/-- `Cartridge::character_write` via the default mapper: pass-through. -/
def Cartridge.character_write (c : Cartridge) (address data : Nat) : Cartridge :=
  { c with chr := updFn c.chr address data }

/-- The registers and memories of `NesPpu` (src/gc_nes_core/src/nes/ppu.rs,
lines 29–105) that the embedded operations read or write.  The rendering
latches, shifters, sprite-evaluation scratch state and the screen buffer are
omitted: none of the operations embedded below touches them.
Flag registers are kept as raw byte values (the Rust `bitflags` wrappers are
bit masks over a `u8`). -/
structure NesPpu where
  ctrl_flags : Nat
  mask_flags : Nat
  status_flags : Nat
  oam_address : Nat
  temporary_vram_address : Nat
  current_vram_address : Nat
  fine_x_scroll : Nat
  write_latch : Bool
  read_buffer : Nat
  palette_ram : Nat → Nat
  name_table : Nat → Nat
  object_attribute_memory : Nat → Nat
  cycle : Nat
  scanline : Nat
  frame_count : Nat

/-- `NesPpu::new` (ppu.rs lines 109–144).  `PpuStatus` derives its default as
`VERTICAL_BLANK | SPRITE_OVERFLOW = 0xa0`; OAM is filled with `0xff`. -/
def NesPpu.new : NesPpu where
  ctrl_flags := 0
  mask_flags := 0
  status_flags := 0xa0
  oam_address := 0
  temporary_vram_address := 0
  current_vram_address := 0
  fine_x_scroll := 0
  write_latch := false
  read_buffer := 0
  palette_ram := fun _ => 0
  name_table := fun _ => 0
  object_attribute_memory := fun _ => 0xff
  cycle := 0
  scanline := 261
  frame_count := 0

/-- `NesPpu::apply_palette_mirroring` (ppu.rs lines 751–762): addresses
`>= 0x3f10` with the low two bits clear drop bit 4 (`& !0x10` on a `u16` is
`& 0xffef`), after which the index is reduced `& 0x1f`. -/
def NesPpu.apply_palette_mirroring (address : Nat) : Nat :=
  (if 0x3f10 ≤ address ∧ address &&& 0x03 = 0 then address &&& 0xffef else address) &&& 0x1f

/-- `NesPpu::apply_name_table_mirroring` (ppu.rs lines 740–747).  For the
two-screen modes bit 10 of the index comes from address bit 10 (vertical) or
bit 11 (horizontal): the Rust shift amount is `0xa | (horizontal as u16)`. -/
def NesPpu.apply_name_table_mirroring (c : Cartridge) (address : Nat) : Nat :=
  match c.mirroring with
  | Mirroring.OneScreenLower => address &&& 0x3ff
  | Mirroring.OneScreenUpper => address &&& 0x3ff
  | Mirroring.Vertical => (address &&& 0x3ff) ||| (((address >>> 0xa) &&& 0x1) <<< 0xa)
  | Mirroring.Horizontal => (address &&& 0x3ff) ||| (((address >>> 0xb) &&& 0x1) <<< 0xa)

/-- `NesPpu::vram_read` (ppu.rs lines 597–604).  Addresses `>= 0x4000` panic in
the source (`none` here).  The function takes `&mut self` but mutates nothing. -/
def NesPpu.vram_read (s : NesPpu) (c : Cartridge) (address : Nat) : Option Nat :=
  if address ≤ 0x1fff then some (c.character_read address)
  else if address ≤ 0x3eff then some (s.name_table (NesPpu.apply_name_table_mirroring c address))
  else if address ≤ 0x3fff then some (s.palette_ram (NesPpu.apply_palette_mirroring address))
  else none

/-- `NesPpu::vram_write` (ppu.rs lines 725–732).  Addresses `>= 0x4000` panic in
the source (`none` here). -/
def NesPpu.vram_write (s : NesPpu) (address data : Nat) (c : Cartridge) :
    Option (NesPpu × Cartridge) :=
  if address ≤ 0x1fff then some (s, c.character_write address data)
  else if address ≤ 0x3eff then
    some ({ s with name_table := updFn s.name_table (NesPpu.apply_name_table_mirroring c address) data }, c)
  else if address ≤ 0x3fff then
    some ({ s with palette_ram := updFn s.palette_ram (NesPpu.apply_palette_mirroring address) data }, c)
  else none

/-- `NesPpu::oam_read` (ppu.rs lines 586–594): during the first 64 cycles
outside vertical blank the read returns `0xff`. -/
def NesPpu.oam_read (s : NesPpu) : Nat :=
  if s.status_flags &&& 0x80 = 0 ∧ 0 < s.cycle ∧ s.cycle ≤ 64 then 0xff
  else s.object_attribute_memory s.oam_address

/-- `NesPpu::oam_write` (ppu.rs lines 607–610): store at `oam_address`, then
`self.oam_address += 1`, an unchecked `u8` addition that overflows (panics in a
debug build) when `oam_address = 0xff`; `none` models the overflow. -/
def NesPpu.oam_write (s : NesPpu) (data : Nat) : Option NesPpu :=
  if s.oam_address = 0xff then none
  else some { s with
    object_attribute_memory := updFn s.object_attribute_memory s.oam_address data
    oam_address := s.oam_address + 1 }

/-- `NesPpu::oam_dma_write` (ppu.rs lines 613–615): write at
`oam_address.wrapping_add(address)`. -/
def NesPpu.oam_dma_write (s : NesPpu) (address data : Nat) : NesPpu :=
  { s with object_attribute_memory :=
      updFn s.object_attribute_memory ((s.oam_address + address) % 256) data }

/-- `NesPpu::scroll_write` (ppu.rs lines 623–643). -/
def NesPpu.scroll_write (s : NesPpu) (data : Nat) : NesPpu :=
  if s.write_latch then
    { s with
      temporary_vram_address :=
        (s.temporary_vram_address &&& 0x0c1f) ||| (((data &&& 0x07) <<< 12) ||| ((data &&& 0xf8) <<< 2))
      write_latch := false }
  else
    { s with
      fine_x_scroll := data &&& 0x07
      temporary_vram_address := (s.temporary_vram_address &&& 0xffe0) ||| (data >>> 3)
      write_latch := true }

/-- `NesPpu::vram_address_write` (ppu.rs lines 652–663). -/
def NesPpu.vram_address_write (s : NesPpu) (data : Nat) : NesPpu :=
  if s.write_latch then
    let t := (s.temporary_vram_address &&& 0xff00) ||| data
    { s with
      temporary_vram_address := t
      current_vram_address := t
      write_latch := false }
  else
    { s with
      temporary_vram_address := (s.temporary_vram_address &&& 0x00ff) ||| ((data &&& 0x3f) <<< 8)
      write_latch := true }

/-- The `v` increment applied after a data-register access (ppu.rs lines
543–547 and 575–579): `+ 0x20` when `PpuCtrl::VRAM_INCREMENT` (bit 2) is set,
else `+ 1`. -/
def NesPpu.vram_increment (s : NesPpu) : Nat :=
  if s.ctrl_flags &&& 0x04 ≠ 0 then 0x20 else 0x01

/-- `NesPpu::read` (ppu.rs lines 507–552), the CPU-visible register read at
`address & 0x07`.  Offsets 3, 5 and 6 `panic!` in the source, as does the
`vram_read` reached from offset 7 when `v ≥ 0x4000`; `none` models the panic.
Returns the byte read and the successor PPU state. -/
def NesPpu.read (s : NesPpu) (c : Cartridge) (address : Nat) : Option (Nat × NesPpu) :=
  match address % 8 with
  | 0 => some (0, s)
  | 1 => some (0, s)
  | 2 =>
    let value := s.status_flags ||| (s.read_buffer &&& 0x1f)
    some (value, { s with status_flags := s.status_flags &&& 0x7f, write_latch := false })
  | 3 => none
  | 4 => some (s.oam_read, s)
  | 5 => none
  | 6 => none
  | 7 =>
    match s.vram_read c s.current_vram_address with
    | none => none
    | some nb =>
      let value := if 0x3f00 ≤ s.current_vram_address then nb else s.read_buffer
      some (value, { s with
        read_buffer := nb
        current_vram_address := s.current_vram_address + s.vram_increment })
  | _ => none

/-- `NesPpu::write` (ppu.rs lines 556–583), the CPU-visible register write at
`address & 0x07`.  `none` models the panics reachable through `oam_write`
(OAM address overflow) and `vram_write` (`v ≥ 0x4000`). -/
def NesPpu.write (s : NesPpu) (c : Cartridge) (address data : Nat) :
    Option (NesPpu × Cartridge) :=
  match address % 8 with
  | 0 => some
      ({ s with
          ctrl_flags := data
          temporary_vram_address :=
            (s.temporary_vram_address &&& 0x73ff) ||| ((data &&& 0x3) <<< 10) }, c)
  | 1 => some ({ s with mask_flags := data }, c)
  | 2 => some (s, c)
  | 3 => some ({ s with oam_address := data }, c)
  | 4 => (s.oam_write data).map (fun s' => (s', c))
  | 5 => some (s.scroll_write data, c)
  | 6 => some (s.vram_address_write data, c)
  | 7 =>
    match s.vram_write s.current_vram_address data c with
    | none => none
    | some (s', c') =>
      some ({ s' with current_vram_address := s'.current_vram_address + s.vram_increment }, c')
  | _ => some (s, c)

/-- `NesPpu::y_increment` (ppu.rs lines 681–708).  Operates when rendering is
enabled (`PpuMask::BACKGROUND_ENABLE | SPRITE_ENABLE = 0x18`); 16-bit
complements: `!FINE_Y_MASK = 0x8fff`, `!COARSE_Y_MASK = 0xfc1f`. -/
def NesPpu.y_increment (s : NesPpu) : NesPpu :=
  if s.mask_flags &&& 0x18 ≠ 0 then
    if s.current_vram_address &&& 0x7000 ≠ 0x7000 then
      { s with current_vram_address := s.current_vram_address + 0x1000 }
    else
      let v := s.current_vram_address &&& 0x8fff
      match (v &&& 0x3e0) >>> 5 with
      | 0x1d => { s with current_vram_address := (v ^^^ 0x800) &&& 0xfc1f }
      | 0x1f => { s with current_vram_address := v &&& 0xfc1f }
      | _ => { s with current_vram_address := v + 0x20 }
  else s

/-- The cycle/scanline/frame rollover at the end of `NesPpu::cycle` (ppu.rs
lines 240–252), projected onto the `(cycle, scanline, frame_count)` triple it
reads and writes.  `MAX_CYCLES = 340`, `MAX_SCANLINES = 261`; on odd frames the
last cycle of the pre-render scanline is skipped. -/
def NesPpu.cycle_advance : Nat × Nat × Nat → Nat × Nat × Nat
  | (c, s, f) =>
    if (c = 340 ∧ s = 261 ∧ f % 2 = 0) ∨ (c = 339 ∧ s = 261 ∧ f % 2 = 1) then
      (0, 0, f + 1)
    else if c = 340 then (0, s + 1, f)
    else (c + 1, s, f)

/-- `NesInputDevice` (src/gc_nes_core/src/input/mod.rs lines 37–44). -/
structure NesInputDevice where
  shift_register : Nat
  reload_latch : Bool
  input_state : Nat
deriving DecidableEq

/-- `NesInputDevice::new` (input/mod.rs lines 48–54). -/
def NesInputDevice.new (input_state : Nat) : NesInputDevice where
  shift_register := 0
  reload_latch := false
  input_state := input_state

/-- `NesInputDevice::reload_shift_register` (input/mod.rs lines 86–90). -/
def NesInputDevice.reload_shift_register (d : NesInputDevice) : NesInputDevice :=
  if d.reload_latch then { d with shift_register := d.input_state } else d

/-- `NesInputDevice::latch` (input/mod.rs lines 63–66): arm or disarm the
reload latch from bit 0 of the written byte, then reload. -/
def NesInputDevice.latch_write (d : NesInputDevice) (data : Nat) : NesInputDevice :=
  NesInputDevice.reload_shift_register { d with reload_latch := data &&& 0x01 = 0x01 }

/-- `NesInputDevice::poll` (input/mod.rs lines 73–83): reload if armed, return
bit 0 (ORed with the open-bus upper bits), shift right and set bit 7. -/
def NesInputDevice.poll (d : NesInputDevice) (bus : Nat) : Nat × NesInputDevice :=
  let d := d.reload_shift_register
  let result := d.shift_register &&& 0x01
  (result ||| (bus &&& 0xf8),
   { d with shift_register := (d.shift_register >>> 1) ||| 0x80 })

/-- The device after `n` polls (each poll performed with `bus = 0`, as the bus
does at `0x4016`/`0x4017` in `src/gc_nes_core/src/nes/mod.rs` lines 211–212). -/
def NesInputDevice.poll_iter (d : NesInputDevice) : Nat → NesInputDevice
  | 0 => d
  | n + 1 => ((d.poll_iter n).poll 0).2

/-- The byte returned by the `n`-th poll (0-indexed). -/
def NesInputDevice.nth_poll (d : NesInputDevice) (n : Nat) : Nat :=
  ((d.poll_iter n).poll 0).1

/-- `Mapper004` (src/gc_nes_core/src/cartridge/mapper.rs lines 261–272), the
MMC3 state.  `bank_select` is the array of eight bank registers. -/
structure Mapper004 where
  bank_control : Nat
  bank_select : Nat → Nat
  mirroring : Mirroring
  program_ram_write_protect : Bool
  program_ram_enabled : Bool
  scanline_counter : Nat
  scanline_counter_reload : Nat
  scanline_counter_reload_flag : Bool
  interrupt_request_enabled : Bool
  pending_interrupt_request : Bool

/-- `Mapper004::get_pending_interrupt_request` (mapper.rs lines 379–383):
return the pending flag and clear it. -/
def Mapper004.get_pending_interrupt_request (m : Mapper004) : Bool × Mapper004 :=
  (m.pending_interrupt_request, { m with pending_interrupt_request := false })

/-- `Mapper004::end_of_scanline` (mapper.rs lines 385–395). -/
def Mapper004.end_of_scanline (m : Mapper004) : Mapper004 :=
  let m1 :=
    if m.scanline_counter = 0 ∧ m.interrupt_request_enabled then
      { m with pending_interrupt_request := true }
    else m
  if m1.scanline_counter = 0 ∨ m1.scanline_counter_reload_flag then
    { m1 with
      scanline_counter := m1.scanline_counter_reload
      scanline_counter_reload_flag := false }
  else { m1 with scanline_counter := m1.scanline_counter - 1 }

/-- `calculate_rom_size` (src/src/cartridge/mod.rs lines 19–35) on a 64-bit
platform: `usize` arithmetic is modulo `2^64` and `overflowing_mul` reports
whether the true product exceeded it.  (`2usize.pow(lsb >> 2)` cannot itself
overflow 64 bits since `lsb >> 2 ≤ 63`.) -/
def calculate_rom_size (least_significant_byte most_significant_byte bank_size : Nat)
    (nes20 : Bool) : Except String Nat :=
  if nes20 ∧ most_significant_byte = 0x0f then
    let a := 2 ^ (least_significant_byte >>> 2)
    let b := (least_significant_byte &&& 0x03) * 2 + 1
    let size := a * b % 2 ^ 64
    if 2 ^ 64 ≤ a * b then
      Except.error "RomTooLarge"
    else
      Except.ok size
  else
    let banks :=
      if nes20 then least_significant_byte ||| (most_significant_byte <<< 8)
      else least_significant_byte
    Except.ok (banks * bank_size)

/-- `DmaStatus` (src/gc_nes_core/src/nes/mod.rs lines 57–66). -/
structure DmaStatus where
  dma_wait : Bool
  dma_start_address : Nat
  dma_count : Nat
  dma_buffer : Nat

/-- `DmaStatus::new` (nes/mod.rs lines 238–245): fresh DMA job for the page
written to `0x4014`. -/
def DmaStatus.new (page : Nat) : DmaStatus where
  dma_wait := true
  dma_start_address := page <<< 8
  dma_count := 0
  dma_buffer := 0

/-- The NES bus state projected onto the components `Nes::cycle`
(src/gc_nes_core/src/nes/mod.rs lines 89–152) reads or writes while an OAM-DMA
job whose source page lies in work RAM is in flight: the master cycle counter,
the DMA job, the 2 KiB work RAM, the PPU's OAM and OAM address, and a counter
of `cpu.cycle` invocations (the 6502 core is an external library; its bus
effects are outside this model, which is sound here because the CPU is never
invoked while a DMA job exists).  `NesPpu::cycle` runs every master tick but
modifies none of these components, so it is dropped from the projection. -/
structure NesDma where
  cycle_count : Nat
  dma_status : Option DmaStatus
  ram : Nat → Nat
  oam : Nat → Nat
  oam_address : Nat
  cpu_cycles : Nat

/-- `Interface6502::read` for the bus (nes/mod.rs lines 206–216), restricted to
the work-RAM window `0x0000..=0x1fff` (`addr & 0x07ff` indexes the 2 KiB RAM);
other windows are outside this reduced model and read as 0. -/
def NesDma.bus_read (s : NesDma) (address : Nat) : Nat :=
  if address ≤ 0x1fff then s.ram (address &&& 0x7ff) else 0

/-- One master tick of `Nes::cycle` (nes/mod.rs lines 89–152) in the reduced
model: on master cycles divisible by 3, either run the CPU (no DMA job) or
advance the DMA state machine — wait for an odd cycle, then read from the bus
on even cycles and write to OAM (`NesPpu::oam_dma_write`, with the wrapping
`dma_count` increment and the discard on wrap-around) on odd cycles; every tick
increments the master cycle counter. -/
def NesDma.cycle (s : NesDma) : NesDma :=
  let s' :=
    if s.cycle_count % 3 = 0 then
      match s.dma_status with
      | none => { s with cpu_cycles := s.cpu_cycles + 1 }
      | some d =>
        if d.dma_wait then
          if s.cycle_count % 2 = 1 then
            { s with dma_status := some ({ d with dma_wait := false }) }
          else s
        else if s.cycle_count % 2 = 0 then
          let d' := { d with dma_buffer := s.bus_read (d.dma_start_address + d.dma_count) }
          { s with dma_status := some d' }
        else
          let count := (d.dma_count + 1) % 256
          { s with
            oam := updFn s.oam ((s.oam_address + d.dma_count) % 256) d.dma_buffer
            dma_status := if count = 0 then none else some ({ d with dma_count := count }) }
    else s
  { s' with cycle_count := s'.cycle_count + 1 }

/-- `n` master ticks of the reduced bus model. -/
def NesDma.run : Nat → NesDma → NesDma
  | 0, s => s
  | n + 1, s => NesDma.run n s.cycle

/-- `n` repetitions of the cycle/scanline/frame rollover step. -/
def NesPpu.cycle_advance_iter : Nat → Nat × Nat × Nat → Nat × Nat × Nat
  | 0, p => p
  | n + 1, p => NesPpu.cycle_advance (NesPpu.cycle_advance_iter n p)

/-- The invariant of C6 on the result of a (possibly panicking) operation. -/
def vt_in_range : Option (NesPpu × Cartridge) → Prop
  | none => True
  | some p => p.1.temporary_vram_address < 2 ^ 15 ∧ p.1.current_vram_address < 2 ^ 15

/-- A sequence of CPU register writes `(address, data)`, stopping (`none`) at
the first write that panics. -/
def apply_ppu_writes : NesPpu × Cartridge → List (Nat × Nat) → Option (NesPpu × Cartridge)
  | p, [] => some p
  | p, (a, d) :: ws =>
    match p.1.write p.2 a d with
    | none => none
    | some p' => apply_ppu_writes p' ws

/-- The OAM contents after the first `k` DMA transfers: transfer `i` writes the
bus byte at `P <<< 8 + i` (reduced into work RAM) to OAM cell
`(oam_address + i) % 256`. -/
def dma_oam_after (oam0 : Nat → Nat) (a0 : Nat) (ram : Nat → Nat) (P : Nat) : Nat → Nat → Nat
  | 0 => oam0
  | k + 1 =>
    updFn (dma_oam_after oam0 a0 ram P k) ((a0 + k) % 256) (ram ((P <<< 8 + k) &&& 0x7ff))

/-- The DMA buffer contents at the start of transfer window `k`. -/
def dma_buf (ram : Nat → Nat) (P k : Nat) : Nat :=
  if k = 0 then 0 else ram ((P <<< 8 + (k - 1)) &&& 0x7ff)

/-- A concrete cartridge used to instantiate theorems. -/
def cart0 : Cartridge := ⟨fun _ => 0, Mirroring.Horizontal⟩

/-- C9: with `v = 0b_111_00_11101_11111` (fine-y 7, coarse-y 29, coarse-x 31,
i.e. `0x73bf`) and rendering enabled, one y-increment yields
`v = 0b_000_01_00000_11111` (fine-y 0, bit 11 flipped, coarse-y 0, coarse-x
unchanged, i.e. `0x081f`). -/
theorem c9_y_increment_coarse_y_wrap_at_29 (s : NesPpu)
    (hv : s.current_vram_address = 0x73bf) (hm : s.mask_flags &&& 0x18 ≠ 0) :
    s.y_increment.current_vram_address = 0x081f := by
  unfold NesPpu.y_increment
  rw [if_pos hm, hv]
  rfl

/-- Witness for C9 at a concrete PPU state. -/
theorem c9_witness :
    ({ NesPpu.new with current_vram_address := 0x73bf, mask_flags := 0x08 } :
      NesPpu).y_increment.current_vram_address = 0x081f :=
  c9_y_increment_coarse_y_wrap_at_29 _ rfl (by decide)

/-- C7: with the MMC3 IRQ-enable flag set and the scanline counter at zero,
one `end_of_scanline` latches exactly one pending IRQ: the next
`get_pending_interrupt_request` returns `true` (and clears the flag), and a
further call returns `false`. -/
theorem c7_mmc3_single_pending_irq (m : Mapper004)
    (h0 : m.scanline_counter = 0) (he : m.interrupt_request_enabled = true) :
    m.end_of_scanline.get_pending_interrupt_request.1 = true ∧
    m.end_of_scanline.get_pending_interrupt_request.2.get_pending_interrupt_request.1
      = false := by
  simp [Mapper004.end_of_scanline, Mapper004.get_pending_interrupt_request, h0, he]

/-- Witness for C7 at a concrete MMC3 state. -/
theorem c7_witness :
    (⟨0, fun _ => 0, Mirroring.Horizontal, false, false, 0, 5, false, true, false⟩ :
        Mapper004).end_of_scanline.get_pending_interrupt_request.1 = true ∧
    (⟨0, fun _ => 0, Mirroring.Horizontal, false, false, 0, 5, false, true, false⟩ :
        Mapper004).end_of_scanline.get_pending_interrupt_request.2.get_pending_interrupt_request.1
      = false :=
  c7_mmc3_single_pending_irq _ rfl rfl

/-- C10: a write to PPU register offset 4 stores the byte at
`object_attribute_memory[oam_address]` and then increments `oam_address` by an
unchecked `u8` addition: it is total exactly when `oam_address < 0xff`, and at
`oam_address = 0xff` the increment overflows (modelled as `none`) instead of
wrapping the address to 0. -/
theorem c10_oam_write_increment_overflow (s : NesPpu) (data : Nat) :
    (s.oam_address < 0xff →
      s.oam_write data = some { s with
        object_attribute_memory := updFn s.object_attribute_memory s.oam_address data
        oam_address := s.oam_address + 1 }) ∧
    (s.oam_address = 0xff → s.oam_write data = none) := by
  constructor
  · intro h
    simp [NesPpu.oam_write, Nat.ne_of_lt h]
  · intro h
    simp [NesPpu.oam_write, h]

/-- Witness for C10 exercising both the in-range store and the overflow. -/
theorem c10_witness :
    NesPpu.new.oam_write 0x42 = some { NesPpu.new with
      object_attribute_memory := updFn NesPpu.new.object_attribute_memory 0 0x42
      oam_address := 1 } ∧
    ({ NesPpu.new with oam_address := 0xff } : NesPpu).oam_write 0x42 = none :=
  ⟨(c10_oam_write_increment_overflow NesPpu.new 0x42).1 (by decide),
   (c10_oam_write_increment_overflow { NesPpu.new with oam_address := 0xff } 0x42).2 rfl⟩

/-- C8: for a NES 2.0 size field whose most-significant nibble is `0xf`, the
ROM-size computation returns `2 ^ (lsb >> 2) * ((lsb & 3) * 2 + 1)` bytes, and
returns the `RomTooLarge` error exactly when that product overflows the 64-bit
address arithmetic of the platform. -/
theorem c8_nes20_exponent_rom_size (lsb bank_size : Nat) :
    calculate_rom_size lsb 0x0f bank_size true =
      if 2 ^ (lsb >>> 2) * ((lsb &&& 0x03) * 2 + 1) < 2 ^ 64 then
        Except.ok (2 ^ (lsb >>> 2) * ((lsb &&& 0x03) * 2 + 1))
      else Except.error "RomTooLarge" := by
  unfold calculate_rom_size
  rw [if_pos ⟨rfl, rfl⟩]
  by_cases h : 2 ^ (lsb >>> 2) * ((lsb &&& 0x03) * 2 + 1) < 2 ^ 64
  · rw [if_neg (by omega), if_pos h, Nat.mod_eq_of_lt h]
  · rw [if_pos (by omega), if_neg h]

/-- C4 (amended): reads of PPU register offsets 0 and 1 return a deterministic
zero without touching the state, while reads of offsets 3, 5 and 6 panic
(modelled as `none`). -/
theorem c4_undefined_register_reads (s : NesPpu) (c : Cartridge) (address : Nat) :
    ((address % 8 = 0 ∨ address % 8 = 1) → s.read c address = some (0, s)) ∧
    ((address % 8 = 3 ∨ address % 8 = 5 ∨ address % 8 = 6) → s.read c address = none) := by
  constructor
  · rintro (h | h) <;> simp [NesPpu.read, h]
  · rintro (h | h | h) <;> simp [NesPpu.read, h]

/-- Witness for C4 exercising a defined-zero offset and a panicking offset. -/
theorem c4_witness :
    NesPpu.new.read cart0 0x2008 = some (0, NesPpu.new) ∧
    NesPpu.new.read cart0 0x2845 = none :=
  ⟨(c4_undefined_register_reads NesPpu.new cart0 0x2008).1 (Or.inl rfl),
   (c4_undefined_register_reads NesPpu.new cart0 0x2845).2 (Or.inr (Or.inl rfl))⟩

/-- C4 counterexample: the claim says a read of offset 3 returns a
deterministic zero and does not panic; in the source `NesPpu::read` of offset 3
is `panic!("Attempting to read from ppu OAM address")`, so the read of address
3 produces no value at all. -/
theorem c4_counterexample : NesPpu.new.read cart0 3 = none := rfl

/-- After arming (`latch` with bit 0 set) and disarming (`latch` with bit 0
clear), the first eight polls return the bits of the input state, low first. -/
theorem input_poll_bits : ∀ x : Fin 256, ∀ i : Fin 8,
    (((NesInputDevice.new x.val).latch_write 1).latch_write 0).nth_poll i.val &&& 1
      = (x.val >>> i.val) &&& 1 := by decide

/-- After arming and disarming the latch, eight polls saturate the shift
register at `0xff`. -/
theorem input_poll_iter_8 : ∀ x : Fin 256,
    (((NesInputDevice.new x.val).latch_write 1).latch_write 0).poll_iter 8
      = ⟨0xff, false, x.val⟩ := by decide

/-- C3 counterexample: the claim promises that after a single latch write with
bit 0 = 1 the eight polls step through the bits of the input state; but while
the latch stays armed every poll re-copies `input_state` into the shift
register, so with input state `0b10` the second poll still returns bit 0 of the
state (0) instead of bit 1 (1) — and the claim fails. -/
theorem c3_counterexample :
    ¬ ((∀ i, i < 8 →
          ((NesInputDevice.new 2).latch_write 1).nth_poll i &&& 1 = (2 >>> i) &&& 1) ∧
       (∀ k, 8 ≤ k →
          ((NesInputDevice.new 2).latch_write 1).nth_poll k &&& 1 = 1)) := by
  intro h
  have h1 := h.1 1 (by omega)
  revert h1
  decide

/-- C3 (amended): for a connected controller with input state `X < 256`, after
a latch write with bit 0 = 1 followed by a latch write with bit 0 = 0, the
first eight polls return (low bit first) the successive bits of `X` in bit 0,
and every subsequent poll returns 1 in bit 0. -/
theorem c3_controller_shift_register (X : Nat) (hX : X < 256) :
    (∀ i, i < 8 →
      (((NesInputDevice.new X).latch_write 1).latch_write 0).nth_poll i &&& 1
        = (X >>> i) &&& 1) ∧
    (∀ k, 8 ≤ k →
      (((NesInputDevice.new X).latch_write 1).latch_write 0).nth_poll k &&& 1 = 1) := by
  constructor
  · intro i hi
    exact input_poll_bits ⟨X, hX⟩ ⟨i, hi⟩
  · intro k hk
    obtain ⟨j, rfl⟩ : ∃ j, k = 8 + j := ⟨k - 8, by omega⟩
    clear hk
    have h8 : (((NesInputDevice.new X).latch_write 1).latch_write 0).poll_iter (8 + j)
        = ⟨0xff, false, X⟩ := by
      induction j with
      | zero => exact input_poll_iter_8 ⟨X, hX⟩
      | succ j ih =>
        show (((((NesInputDevice.new X).latch_write 1).latch_write 0).poll_iter (8 + j)).poll 0).2
          = ({ shift_register := 0xff, reload_latch := false, input_state := X } : NesInputDevice)
        rw [ih]
        simp [NesInputDevice.poll, NesInputDevice.reload_shift_register]
    rw [NesInputDevice.nth_poll, h8]
    simp [NesInputDevice.poll, NesInputDevice.reload_shift_register]

/-- Witness for C3 at the concrete input state `0xaa`. -/
theorem c3_witness :
    (∀ i, i < 8 →
      (((NesInputDevice.new 0xaa).latch_write 1).latch_write 0).nth_poll i &&& 1
        = (0xaa >>> i) &&& 1) ∧
    (∀ k, 8 ≤ k →
      (((NesInputDevice.new 0xaa).latch_write 1).latch_write 0).nth_poll k &&& 1 = 1) :=
  c3_controller_shift_register 0xaa (by decide)

/-- For palette addresses satisfying `a & 0x13 = 0x10`, dropping bit 4 reaches
the same palette-RAM index, and the alias stays inside the palette window. -/
theorem palette_mirror_index : ∀ x : Fin 256,
    (0x3f00 + x.val) &&& 0x13 = 0x10 →
      NesPpu.apply_palette_mirroring (0x3f00 + x.val)
        = NesPpu.apply_palette_mirroring ((0x3f00 + x.val) &&& 0xffef) ∧
      0x3f00 ≤ (0x3f00 + x.val) &&& 0xffef ∧ (0x3f00 + x.val) &&& 0xffef ≤ 0x3fff := by
  decide

/-- C5: for every address `a` in `0x3f00..=0x3fff` with `a & 0x13 = 0x10`, a
PPU VRAM read or write at `a` accesses the same palette-RAM cell as the same
operation at `a & !0x10`; in particular, after writing `0x3a` to VRAM address
`0x3f10`, a VRAM read of `0x3f00` returns `0x3a`. -/
theorem c5_palette_mirroring :
    (∀ a data, 0x3f00 ≤ a → a ≤ 0x3fff → a &&& 0x13 = 0x10 →
      ∀ (s : NesPpu) (c : Cartridge),
        NesPpu.apply_palette_mirroring a = NesPpu.apply_palette_mirroring (a &&& 0xffef) ∧
        s.vram_read c a = s.vram_read c (a &&& 0xffef) ∧
        s.vram_write a data c = s.vram_write (a &&& 0xffef) data c) ∧
    (∀ (s : NesPpu) (c : Cartridge),
      ((s.vram_write 0x3f10 0x3a c).bind fun p => p.1.vram_read p.2 0x3f00) = some 0x3a) := by
  constructor
  · intro a data h1 h2 h3 s c
    obtain ⟨x, rfl⟩ : ∃ x : Fin 256, a = 0x3f00 + x.val :=
      ⟨⟨a - 0x3f00, by omega⟩, by simp; omega⟩
    have hxlt := x.isLt
    obtain ⟨hidx, hb1, hb2⟩ := palette_mirror_index x h3
    refine ⟨hidx, ?_, ?_⟩
    · have e1 : s.vram_read c (0x3f00 + x.val)
          = some (s.palette_ram (NesPpu.apply_palette_mirroring (0x3f00 + x.val))) := by
        unfold NesPpu.vram_read
        rw [if_neg (by omega), if_neg (by omega), if_pos (by omega)]
      have e2 : s.vram_read c ((0x3f00 + x.val) &&& 0xffef)
          = some (s.palette_ram (NesPpu.apply_palette_mirroring ((0x3f00 + x.val) &&& 0xffef))) := by
        unfold NesPpu.vram_read
        rw [if_neg (by omega), if_neg (by omega), if_pos (by omega)]
      rw [e1, e2, hidx]
    · have w1 : s.vram_write (0x3f00 + x.val) data c
          = some ({ s with palette_ram := updFn s.palette_ram (NesPpu.apply_palette_mirroring (0x3f00 + x.val)) data }, c) := by
        unfold NesPpu.vram_write
        rw [if_neg (by omega), if_neg (by omega), if_pos (by omega)]
      have w2 : s.vram_write ((0x3f00 + x.val) &&& 0xffef) data c
          = some ({ s with palette_ram := updFn s.palette_ram (NesPpu.apply_palette_mirroring ((0x3f00 + x.val) &&& 0xffef)) data }, c) := by
        unfold NesPpu.vram_write
        rw [if_neg (by omega), if_neg (by omega), if_pos (by omega)]
      rw [w1, w2, hidx]
  · intro s c
    have ha : NesPpu.apply_palette_mirroring 0x3f10 = 0 := by decide
    have hb : NesPpu.apply_palette_mirroring 0x3f00 = 0 := by decide
    have hw : s.vram_write 0x3f10 0x3a c
        = some ({ s with palette_ram := updFn s.palette_ram 0 0x3a }, c) := by
      unfold NesPpu.vram_write
      rw [if_neg (by omega), if_neg (by omega), if_pos (by omega), ha]
    rw [hw]
    show ({ s with palette_ram := updFn s.palette_ram 0 0x3a } : NesPpu).vram_read c 0x3f00
      = some 0x3a
    unfold NesPpu.vram_read
    rw [if_neg (by omega), if_neg (by omega), if_pos (by omega), hb]
    simp [updFn]

/-- Witness for C5 at the concrete alias pair `0x3f18 / 0x3f08` and the
concrete write/read scenario. -/
theorem c5_witness :
    (NesPpu.apply_palette_mirroring 0x3f18 = NesPpu.apply_palette_mirroring (0x3f18 &&& 0xffef) ∧
     NesPpu.new.vram_read cart0 0x3f18 = NesPpu.new.vram_read cart0 (0x3f18 &&& 0xffef) ∧
     NesPpu.new.vram_write 0x3f18 0x55 cart0 = NesPpu.new.vram_write (0x3f18 &&& 0xffef) 0x55 cart0) ∧
    ((NesPpu.new.vram_write 0x3f10 0x3a cart0).bind fun p => p.1.vram_read p.2 0x3f00)
      = some 0x3a :=
  ⟨c5_palette_mirroring.1 0x3f18 0x55 (by omega) (by omega) (by decide) NesPpu.new cart0,
   c5_palette_mirroring.2 NesPpu.new cart0⟩

/-- Iterating the rollover step splits over addition. -/
theorem cycle_advance_iter_add (a b : Nat) (p : Nat × Nat × Nat) :
    NesPpu.cycle_advance_iter (a + b) p
      = NesPpu.cycle_advance_iter a (NesPpu.cycle_advance_iter b p) := by
  induction a with
  | zero => simp [NesPpu.cycle_advance_iter]
  | succ a ih =>
    rw [Nat.succ_add]
    show NesPpu.cycle_advance (NesPpu.cycle_advance_iter (a + b) p) = _
    rw [ih]
    rfl

/-- Closed form of the dot position inside an even frame: for the first
89341 ticks from the frame boundary, the PPU sits at dot `n % 341` of scanline
`n / 341` and the frame counter is unchanged. -/
theorem cycle_advance_pos_even (f : Nat) (hf : f % 2 = 0) :
    ∀ n, n ≤ 89341 →
      NesPpu.cycle_advance_iter n (0, 0, f) = (n % 341, n / 341, f) := by
  intro n
  induction n with
  | zero => intro _; rfl
  | succ n ih =>
    intro hn
    have hstep := ih (by omega)
    show NesPpu.cycle_advance (NesPpu.cycle_advance_iter n (0, 0, f)) = _
    rw [hstep]
    simp only [NesPpu.cycle_advance]
    rw [if_neg (by omega)]
    by_cases h340 : n % 341 = 340
    · rw [if_pos h340]
      have e1 : (n + 1) % 341 = 0 := by omega
      have e2 : (n + 1) / 341 = n / 341 + 1 := by omega
      rw [e1, e2]
    · rw [if_neg h340]
      have e1 : (n + 1) % 341 = n % 341 + 1 := by omega
      have e2 : (n + 1) / 341 = n / 341 := by omega
      rw [e1, e2]

/-- Closed form of the dot position inside an odd frame: for the first
89340 ticks from the frame boundary, the PPU sits at dot `n % 341` of scanline
`n / 341` and the frame counter is unchanged. -/
theorem cycle_advance_pos_odd (f : Nat) (hf : f % 2 = 1) :
    ∀ n, n ≤ 89340 →
      NesPpu.cycle_advance_iter n (0, 0, f) = (n % 341, n / 341, f) := by
  intro n
  induction n with
  | zero => intro _; rfl
  | succ n ih =>
    intro hn
    have hstep := ih (by omega)
    show NesPpu.cycle_advance (NesPpu.cycle_advance_iter n (0, 0, f)) = _
    rw [hstep]
    simp only [NesPpu.cycle_advance]
    rw [if_neg (by omega)]
    by_cases h340 : n % 341 = 340
    · rw [if_pos h340]
      have e1 : (n + 1) % 341 = 0 := by omega
      have e2 : (n + 1) / 341 = n / 341 + 1 := by omega
      rw [e1, e2]
    · rw [if_neg h340]
      have e1 : (n + 1) % 341 = n % 341 + 1 := by omega
      have e2 : (n + 1) / 341 = n / 341 := by omega
      rw [e1, e2]

/-- C1: the frame cadence alternates.  Starting a frame with an even frame
counter, the pre-render scanline (261) reaches dot 340 after 89341 ticks and
the frame rolls over after exactly 89342 ticks; on the following odd frame the
pre-render scanline ends at dot 339 (reached after 89340 ticks) and the frame
rolls over after exactly 89341 ticks; the frame counter changes at no earlier
tick of either frame, and the two adjacent frames together comprise
89342 + 89341 = 178683 ticks. -/
theorem c1_frame_cadence (f : Nat) (hf : f % 2 = 0) :
    NesPpu.cycle_advance_iter 89341 (0, 0, f) = (340, 261, f) ∧
    NesPpu.cycle_advance_iter 89342 (0, 0, f) = (0, 0, f + 1) ∧
    (∀ n, n ≤ 89341 → (NesPpu.cycle_advance_iter n (0, 0, f)).2.2 = f) ∧
    NesPpu.cycle_advance_iter 89340 (0, 0, f + 1) = (339, 261, f + 1) ∧
    NesPpu.cycle_advance_iter 89341 (0, 0, f + 1) = (0, 0, f + 2) ∧
    (∀ n, n ≤ 89340 → (NesPpu.cycle_advance_iter n (0, 0, f + 1)).2.2 = f + 1) ∧
    NesPpu.cycle_advance_iter (89342 + 89341) (0, 0, f) = (0, 0, f + 2) := by
  have hf1 : (f + 1) % 2 = 1 := by omega
  have hlast : NesPpu.cycle_advance_iter 89341 (0, 0, f) = (340, 261, f) := by
    rw [cycle_advance_pos_even f hf 89341 (by omega)]
  have hroll : NesPpu.cycle_advance_iter 89342 (0, 0, f) = (0, 0, f + 1) := by
    show NesPpu.cycle_advance (NesPpu.cycle_advance_iter 89341 (0, 0, f)) = _
    rw [hlast]
    simp [NesPpu.cycle_advance, hf]
  have hlast1 : NesPpu.cycle_advance_iter 89340 (0, 0, f + 1) = (339, 261, f + 1) := by
    rw [cycle_advance_pos_odd (f + 1) hf1 89340 (by omega)]
  have hroll1 : NesPpu.cycle_advance_iter 89341 (0, 0, f + 1) = (0, 0, f + 2) := by
    show NesPpu.cycle_advance (NesPpu.cycle_advance_iter 89340 (0, 0, f + 1)) = _
    rw [hlast1]
    simp [NesPpu.cycle_advance, hf1]
  refine ⟨hlast, hroll, ?_, hlast1, hroll1, ?_, ?_⟩
  · intro n hn
    rw [cycle_advance_pos_even f hf n hn]
  · intro n hn
    rw [cycle_advance_pos_odd (f + 1) hf1 n hn]
  · have : (89342 : Nat) + 89341 = 89341 + 89342 := by omega
    rw [this, cycle_advance_iter_add, hroll, hroll1]

/-- Witness for C1 at the concrete frame counter 0. -/
theorem c1_witness :
    NesPpu.cycle_advance_iter 89341 (0, 0, 0) = (340, 261, 0) ∧
    NesPpu.cycle_advance_iter 89342 (0, 0, 0) = (0, 0, 1) ∧
    (∀ n, n ≤ 89341 → (NesPpu.cycle_advance_iter n (0, 0, 0)).2.2 = 0) ∧
    NesPpu.cycle_advance_iter 89340 (0, 0, 1) = (339, 261, 1) ∧
    NesPpu.cycle_advance_iter 89341 (0, 0, 1) = (0, 0, 2) ∧
    (∀ n, n ≤ 89340 → (NesPpu.cycle_advance_iter n (0, 0, 1)).2.2 = 1) ∧
    NesPpu.cycle_advance_iter (89342 + 89341) (0, 0, 0) = (0, 0, 2) :=
  c1_frame_cadence 0 rfl

/-- Masking with a mask below `2^15` keeps the value below `2^15`. -/
theorem masked_lt {x m : Nat} (hm : m < 2 ^ 15) : x &&& m < 2 ^ 15 :=
  lt_of_le_of_lt Nat.and_le_right hm

/-- A masked value shifted left stays below `2^15` when the shifted mask does. -/
theorem and_shl_lt (d m k : Nat) (h : m * 2 ^ k < 2 ^ 15) : (d &&& m) <<< k < 2 ^ 15 := by
  rw [Nat.shiftLeft_eq]
  exact lt_of_le_of_lt (Nat.mul_le_mul_right _ Nat.and_le_right) h

/-- The data-register address increment is at most `0x20`. -/
theorem vram_increment_le (s : NesPpu) : s.vram_increment ≤ 0x20 := by
  unfold NesPpu.vram_increment
  split <;> omega

/-- A single CPU register write preserves `v < 2^15 ∧ t < 2^15`. -/
theorem ppu_write_preserves_vt (s : NesPpu) (c : Cartridge) (a d : Nat) (hd : d < 256)
    (ht : s.temporary_vram_address < 2 ^ 15) (hv : s.current_vram_address < 2 ^ 15) :
    vt_in_range (s.write c a d) := by
  have h8 : a % 8 < 8 := Nat.mod_lt _ (by norm_num)
  have hinc := vram_increment_le s
  interval_cases h : a % 8
  · -- offset 0: ctrl write
    simp only [NesPpu.write, h, vt_in_range]
    exact ⟨Nat.or_lt_two_pow (masked_lt (by norm_num)) (and_shl_lt _ _ _ (by norm_num)), hv⟩
  · -- offset 1: mask write
    simp only [NesPpu.write, h, vt_in_range]
    exact ⟨ht, hv⟩
  · -- offset 2: ignored
    simp only [NesPpu.write, h, vt_in_range]
    exact ⟨ht, hv⟩
  · -- offset 3: OAM address
    simp only [NesPpu.write, h, vt_in_range]
    exact ⟨ht, hv⟩
  · -- offset 4: OAM data (may overflow the OAM address)
    simp only [NesPpu.write, h, NesPpu.oam_write]
    split_ifs
    · simp [vt_in_range]
    · simp [vt_in_range]
      exact ⟨ht, hv⟩
  · -- offset 5: scroll write
    simp only [NesPpu.write, h, NesPpu.scroll_write]
    split_ifs
    · exact ⟨Nat.or_lt_two_pow (masked_lt (by norm_num))
        (Nat.or_lt_two_pow (and_shl_lt _ _ _ (by norm_num)) (and_shl_lt _ _ _ (by norm_num))), hv⟩
    · refine ⟨Nat.or_lt_two_pow (lt_of_le_of_lt Nat.and_le_left ht) ?_, hv⟩
      rw [Nat.shiftRight_eq_div_pow]
      exact lt_of_le_of_lt (Nat.div_le_self d (2 ^ 3)) (by omega)
  · -- offset 6: address write
    simp only [NesPpu.write, h, NesPpu.vram_address_write]
    split_ifs
    · have hlow : (s.temporary_vram_address &&& 0xff00) ||| d < 2 ^ 15 :=
        Nat.or_lt_two_pow (lt_of_le_of_lt Nat.and_le_left ht) (by omega)
      exact ⟨hlow, hlow⟩
    · exact ⟨Nat.or_lt_two_pow (masked_lt (by norm_num)) (and_shl_lt _ _ _ (by norm_num)), hv⟩
  · -- offset 7: data write through vram_write, then increment v
    simp only [NesPpu.write, h, NesPpu.vram_write]
    split_ifs with h1 h2 h3
    · simp only [vt_in_range]
      exact ⟨ht, by omega⟩
    · simp only [vt_in_range]
      exact ⟨ht, by omega⟩
    · simp only [vt_in_range]
      exact ⟨ht, by omega⟩
    · simp [vt_in_range]

/-- Any sequence of byte-valued register writes preserves the 15-bit bound on
`v` and `t`. -/
theorem apply_ppu_writes_preserves_vt (ws : List (Nat × Nat)) :
    ∀ p : NesPpu × Cartridge, (∀ q ∈ ws, q.2 < 256) →
      p.1.temporary_vram_address < 2 ^ 15 → p.1.current_vram_address < 2 ^ 15 →
      vt_in_range (apply_ppu_writes p ws) := by
  induction ws with
  | nil => intro p _ ht hv; exact ⟨ht, hv⟩
  | cons w ws ih =>
    intro p hws ht hv
    obtain ⟨a, d⟩ := w
    simp only [apply_ppu_writes]
    rcases hw : p.1.write p.2 a d with _ | p'
    · trivial
    · have hstep := ppu_write_preserves_vt p.1 p.2 a d (hws (a, d) (by simp)) ht hv
      rw [hw] at hstep
      exact ih p' (fun q hq => hws q (by simp [hq])) hstep.1 hstep.2

/-- C6: for every sequence of byte-valued CPU writes to the PPU registers
(any addresses, any order), starting from a freshly constructed PPU, the
current VRAM address `v` and the temporary VRAM address `t` satisfy
`v < 2^15` and `t < 2^15` after every prefix that does not panic. -/
theorem c6_vram_addresses_15_bits (c : Cartridge) (ws : List (Nat × Nat))
    (hws : ∀ q ∈ ws, q.2 < 256) :
    vt_in_range (apply_ppu_writes (NesPpu.new, c) ws) :=
  apply_ppu_writes_preserves_vt ws (NesPpu.new, c) hws (by norm_num [NesPpu.new])
    (by norm_num [NesPpu.new])

/-- Witness for C6 on a concrete write sequence exercising ctrl, scroll,
address and data writes. -/
theorem c6_witness :
    vt_in_range (apply_ppu_writes (NesPpu.new, cart0)
      [(0x2000, 0xff), (0x2005, 0xff), (0x2005, 0xff), (0x2006, 0x3f), (0x2006, 0xff),
       (0x2007, 0x12)]) :=
  c6_vram_addresses_15_bits cart0 _ (by decide)

/-- On a master cycle not divisible by 3 only the cycle counter advances. -/
theorem dma_cycle_idle (m : Nat) (dma : Option DmaStatus) (ram oam : Nat → Nat)
    (a0 cpu0 : Nat) (h : ¬ m % 3 = 0) :
    NesDma.cycle ⟨m, dma, ram, oam, a0, cpu0⟩ = ⟨m + 1, dma, ram, oam, a0, cpu0⟩ := by
  simp only [NesDma.cycle]
  rw [if_neg h]

/-- A waiting DMA job stays waiting on an even master cycle. -/
theorem dma_cycle_wait_even (m : Nat) (d : DmaStatus) (ram oam : Nat → Nat)
    (a0 cpu0 : Nat) (h3 : m % 3 = 0) (h2 : ¬ m % 2 = 1) (hw : d.dma_wait = true) :
    NesDma.cycle ⟨m, some d, ram, oam, a0, cpu0⟩ = ⟨m + 1, some d, ram, oam, a0, cpu0⟩ := by
  simp only [NesDma.cycle]
  rw [if_pos h3, hw, if_pos rfl, if_neg h2]

/-- A waiting DMA job is released on an odd master cycle. -/
theorem dma_cycle_wait_odd (m : Nat) (d : DmaStatus) (ram oam : Nat → Nat)
    (a0 cpu0 : Nat) (h3 : m % 3 = 0) (h2 : m % 2 = 1) (hw : d.dma_wait = true) :
    NesDma.cycle ⟨m, some d, ram, oam, a0, cpu0⟩
      = ⟨m + 1, some { d with dma_wait := false }, ram, oam, a0, cpu0⟩ := by
  simp only [NesDma.cycle]
  rw [if_pos h3, hw, if_pos rfl, if_pos h2]

/-- A running DMA job reads the bus into its buffer on an even master cycle. -/
theorem dma_cycle_read (m : Nat) (d : DmaStatus) (ram oam : Nat → Nat)
    (a0 cpu0 : Nat) (h3 : m % 3 = 0) (h2 : m % 2 = 0) (hw : d.dma_wait = false)
    (haddr : d.dma_start_address + d.dma_count ≤ 0x1fff) :
    NesDma.cycle ⟨m, some d, ram, oam, a0, cpu0⟩
      = ⟨m + 1, some { d with
          dma_buffer := ram ((d.dma_start_address + d.dma_count) &&& 0x7ff) },
          ram, oam, a0, cpu0⟩ := by
  simp only [NesDma.cycle, NesDma.bus_read]
  rw [hw, if_pos h3, if_neg (by simp), if_pos h2, if_pos haddr]

/-- A running DMA job writes its buffer to OAM on an odd master cycle; the
count increments without wrapping. -/
theorem dma_cycle_write (m : Nat) (d : DmaStatus) (ram oam : Nat → Nat)
    (a0 cpu0 : Nat) (h3 : m % 3 = 0) (h2 : ¬ m % 2 = 0) (hw : d.dma_wait = false)
    (hc : d.dma_count + 1 < 256) :
    NesDma.cycle ⟨m, some d, ram, oam, a0, cpu0⟩
      = ⟨m + 1, some { d with dma_count := d.dma_count + 1 }, ram,
          updFn oam ((a0 + d.dma_count) % 256) d.dma_buffer, a0, cpu0⟩ := by
  simp only [NesDma.cycle, NesDma.bus_read]
  rw [hw, if_pos h3, if_neg (by simp), if_neg h2]
  have hmod : (d.dma_count + 1) % 256 = d.dma_count + 1 := Nat.mod_eq_of_lt hc
  rw [hmod, if_neg (by omega)]

/-- The final DMA write: at count 255 the wrapping increment reaches 0 and the
job is discarded. -/
theorem dma_cycle_write_last (m : Nat) (d : DmaStatus) (ram oam : Nat → Nat)
    (a0 cpu0 : Nat) (h3 : m % 3 = 0) (h2 : ¬ m % 2 = 0) (hw : d.dma_wait = false)
    (hc : d.dma_count = 255) :
    NesDma.cycle ⟨m, some d, ram, oam, a0, cpu0⟩
      = ⟨m + 1, none, ram, updFn oam ((a0 + 255) % 256) d.dma_buffer, a0, cpu0⟩ := by
  simp only [NesDma.cycle, NesDma.bus_read]
  rw [hw, if_pos h3, if_neg (by simp), if_neg h2, hc]
  norm_num

/-- Running ticks splits over addition (the `b` ticks run first). -/
theorem nesdma_run_add (a b : Nat) (s : NesDma) :
    NesDma.run (a + b) s = NesDma.run a (NesDma.run b s) := by
  induction b generalizing s with
  | zero => rfl
  | succ b ih =>
    show NesDma.run (a + b + 1) s = _
    show NesDma.run (a + b) s.cycle = _
    rw [ih]
    rfl

/-- One full six-tick DMA transfer window (idle, idle, bus read, idle, idle,
OAM write) advancing the count from `k` to `k + 1`. -/
theorem dma_six_step (m P k b : Nat) (hm : m % 6 = 4) (hP : P ≤ 0x1f) (hk : k < 255)
    (ram oam : Nat → Nat) (a0 cpu0 : Nat) :
    NesDma.run 6 ⟨m, some ⟨false, P <<< 8, k, b⟩, ram, oam, a0, cpu0⟩
      = ⟨m + 6, some ⟨false, P <<< 8, k + 1, ram ((P <<< 8 + k) &&& 0x7ff)⟩, ram,
          updFn oam ((a0 + k) % 256) (ram ((P <<< 8 + k) &&& 0x7ff)), a0, cpu0⟩ := by
  have hsh : P <<< 8 = P * 256 := by rw [Nat.shiftLeft_eq]
  have haddr : P <<< 8 + k ≤ 0x1fff := by omega
  have t1 := dma_cycle_idle m (some ⟨false, P <<< 8, k, b⟩) ram oam a0 cpu0 (by omega)
  have t2 := dma_cycle_idle (m + 1) (some ⟨false, P <<< 8, k, b⟩) ram oam a0 cpu0 (by omega)
  have t3 := dma_cycle_read (m + 1 + 1) ⟨false, P <<< 8, k, b⟩ ram oam a0 cpu0
    (by omega) (by omega) rfl (by show P <<< 8 + k ≤ 0x1fff; omega)
  have t4 := dma_cycle_idle (m + 1 + 1 + 1)
    (some ⟨false, P <<< 8, k, ram ((P <<< 8 + k) &&& 0x7ff)⟩) ram oam a0 cpu0 (by omega)
  have t5 := dma_cycle_idle (m + 1 + 1 + 1 + 1)
    (some ⟨false, P <<< 8, k, ram ((P <<< 8 + k) &&& 0x7ff)⟩) ram oam a0 cpu0 (by omega)
  have t6 := dma_cycle_write (m + 1 + 1 + 1 + 1 + 1)
    ⟨false, P <<< 8, k, ram ((P <<< 8 + k) &&& 0x7ff)⟩ ram oam a0 cpu0
    (by omega) (by omega) rfl (by show k + 1 < 256; omega)
  show NesDma.run 5 (NesDma.cycle ⟨m, some ⟨false, P <<< 8, k, b⟩, ram, oam, a0, cpu0⟩) = _
  rw [t1]
  show NesDma.run 4 (NesDma.cycle ⟨m + 1, some ⟨false, P <<< 8, k, b⟩, ram, oam, a0, cpu0⟩) = _
  rw [t2]
  show NesDma.run 3
    (NesDma.cycle ⟨m + 1 + 1, some ⟨false, P <<< 8, k, b⟩, ram, oam, a0, cpu0⟩) = _
  rw [t3]
  show NesDma.run 2 (NesDma.cycle ⟨m + 1 + 1 + 1,
    some ⟨false, P <<< 8, k, ram ((P <<< 8 + k) &&& 0x7ff)⟩, ram, oam, a0, cpu0⟩) = _
  rw [t4]
  show NesDma.run 1 (NesDma.cycle ⟨m + 1 + 1 + 1 + 1,
    some ⟨false, P <<< 8, k, ram ((P <<< 8 + k) &&& 0x7ff)⟩, ram, oam, a0, cpu0⟩) = _
  rw [t5]
  show NesDma.run 0 (NesDma.cycle ⟨m + 1 + 1 + 1 + 1 + 1,
    some ⟨false, P <<< 8, k, ram ((P <<< 8 + k) &&& 0x7ff)⟩, ram, oam, a0, cpu0⟩) = _
  rw [t6]
  show (⟨m + 1 + 1 + 1 + 1 + 1 + 1, some ⟨false, P <<< 8, k + 1, ram ((P <<< 8 + k) &&& 0x7ff)⟩,
    ram, updFn oam ((a0 + k) % 256) (ram ((P <<< 8 + k) &&& 0x7ff)), a0, cpu0⟩ : NesDma) = _
  congr 1

/-- The final six-tick DMA window: the count wraps from 255 to 0 and the job
is discarded. -/
theorem dma_six_step_last (m P b : Nat) (hm : m % 6 = 4) (hP : P ≤ 0x1f)
    (ram oam : Nat → Nat) (a0 cpu0 : Nat) :
    NesDma.run 6 ⟨m, some ⟨false, P <<< 8, 255, b⟩, ram, oam, a0, cpu0⟩
      = ⟨m + 6, none, ram,
          updFn oam ((a0 + 255) % 256) (ram ((P <<< 8 + 255) &&& 0x7ff)), a0, cpu0⟩ := by
  have hsh : P <<< 8 = P * 256 := by rw [Nat.shiftLeft_eq]
  have t1 := dma_cycle_idle m (some ⟨false, P <<< 8, 255, b⟩) ram oam a0 cpu0 (by omega)
  have t2 := dma_cycle_idle (m + 1) (some ⟨false, P <<< 8, 255, b⟩) ram oam a0 cpu0 (by omega)
  have t3 := dma_cycle_read (m + 1 + 1) ⟨false, P <<< 8, 255, b⟩ ram oam a0 cpu0
    (by omega) (by omega) rfl (by show P <<< 8 + 255 ≤ 0x1fff; omega)
  have t4 := dma_cycle_idle (m + 1 + 1 + 1)
    (some ⟨false, P <<< 8, 255, ram ((P <<< 8 + 255) &&& 0x7ff)⟩) ram oam a0 cpu0 (by omega)
  have t5 := dma_cycle_idle (m + 1 + 1 + 1 + 1)
    (some ⟨false, P <<< 8, 255, ram ((P <<< 8 + 255) &&& 0x7ff)⟩) ram oam a0 cpu0 (by omega)
  have t6 := dma_cycle_write_last (m + 1 + 1 + 1 + 1 + 1)
    ⟨false, P <<< 8, 255, ram ((P <<< 8 + 255) &&& 0x7ff)⟩ ram oam a0 cpu0
    (by omega) (by omega) rfl rfl
  show NesDma.run 5 (NesDma.cycle ⟨m, some ⟨false, P <<< 8, 255, b⟩, ram, oam, a0, cpu0⟩) = _
  rw [t1]
  show NesDma.run 4
    (NesDma.cycle ⟨m + 1, some ⟨false, P <<< 8, 255, b⟩, ram, oam, a0, cpu0⟩) = _
  rw [t2]
  show NesDma.run 3
    (NesDma.cycle ⟨m + 1 + 1, some ⟨false, P <<< 8, 255, b⟩, ram, oam, a0, cpu0⟩) = _
  rw [t3]
  show NesDma.run 2 (NesDma.cycle ⟨m + 1 + 1 + 1,
    some ⟨false, P <<< 8, 255, ram ((P <<< 8 + 255) &&& 0x7ff)⟩, ram, oam, a0, cpu0⟩) = _
  rw [t4]
  show NesDma.run 1 (NesDma.cycle ⟨m + 1 + 1 + 1 + 1,
    some ⟨false, P <<< 8, 255, ram ((P <<< 8 + 255) &&& 0x7ff)⟩, ram, oam, a0, cpu0⟩) = _
  rw [t5]
  show NesDma.run 0 (NesDma.cycle ⟨m + 1 + 1 + 1 + 1 + 1,
    some ⟨false, P <<< 8, 255, ram ((P <<< 8 + 255) &&& 0x7ff)⟩, ram, oam, a0, cpu0⟩) = _
  rw [t6]
  congr 1

/-- The six warm-up ticks after the `0x4014` write on an odd CPU slot: two
idle ticks, a skipped wait slot on the even master cycle, two more idle ticks,
and the wait-release on the odd master cycle. -/
theorem dma_warmup (m P : Nat) (hm : m % 6 = 4)
    (ram oam : Nat → Nat) (a0 cpu0 : Nat) :
    NesDma.run 6 ⟨m, some (DmaStatus.new P), ram, oam, a0, cpu0⟩
      = ⟨m + 6, some ⟨false, P <<< 8, 0, 0⟩, ram, oam, a0, cpu0⟩ := by
  have t1 := dma_cycle_idle m (some ⟨true, P <<< 8, 0, 0⟩) ram oam a0 cpu0 (by omega)
  have t2 := dma_cycle_idle (m + 1) (some ⟨true, P <<< 8, 0, 0⟩) ram oam a0 cpu0 (by omega)
  have t3 := dma_cycle_wait_even (m + 1 + 1) ⟨true, P <<< 8, 0, 0⟩ ram oam a0 cpu0
    (by omega) (by omega) rfl
  have t4 := dma_cycle_idle (m + 1 + 1 + 1) (some ⟨true, P <<< 8, 0, 0⟩) ram oam a0 cpu0
    (by omega)
  have t5 := dma_cycle_idle (m + 1 + 1 + 1 + 1) (some ⟨true, P <<< 8, 0, 0⟩) ram oam a0 cpu0
    (by omega)
  have t6 := dma_cycle_wait_odd (m + 1 + 1 + 1 + 1 + 1) ⟨true, P <<< 8, 0, 0⟩ ram oam a0 cpu0
    (by omega) (by omega) rfl
  show NesDma.run 5 (NesDma.cycle ⟨m, some ⟨true, P <<< 8, 0, 0⟩, ram, oam, a0, cpu0⟩) = _
  rw [t1]
  show NesDma.run 4
    (NesDma.cycle ⟨m + 1, some ⟨true, P <<< 8, 0, 0⟩, ram, oam, a0, cpu0⟩) = _
  rw [t2]
  show NesDma.run 3
    (NesDma.cycle ⟨m + 1 + 1, some ⟨true, P <<< 8, 0, 0⟩, ram, oam, a0, cpu0⟩) = _
  rw [t3]
  show NesDma.run 2
    (NesDma.cycle ⟨m + 1 + 1 + 1, some ⟨true, P <<< 8, 0, 0⟩, ram, oam, a0, cpu0⟩) = _
  rw [t4]
  show NesDma.run 1
    (NesDma.cycle ⟨m + 1 + 1 + 1 + 1, some ⟨true, P <<< 8, 0, 0⟩, ram, oam, a0, cpu0⟩) = _
  rw [t5]
  show NesDma.run 0
    (NesDma.cycle ⟨m + 1 + 1 + 1 + 1 + 1, some ⟨true, P <<< 8, 0, 0⟩, ram, oam, a0, cpu0⟩) = _
  rw [t6]
  congr 1

/-- After `6 * k` ticks from the start of the transfer phase, `k` bytes have
been copied and the count sits at `k`. -/
theorem dma_window (m P : Nat) (hm : m % 6 = 4) (hP : P ≤ 0x1f)
    (ram oam : Nat → Nat) (a0 cpu0 : Nat) :
    ∀ k, k ≤ 255 →
      NesDma.run (6 * k) ⟨m, some ⟨false, P <<< 8, 0, 0⟩, ram, oam, a0, cpu0⟩
        = ⟨m + 6 * k, some ⟨false, P <<< 8, k, dma_buf ram P k⟩, ram,
            dma_oam_after oam a0 ram P k, a0, cpu0⟩ := by
  intro k
  induction k with
  | zero => intro _; rfl
  | succ k ih =>
    intro hk
    have e : 6 * (k + 1) = 6 + 6 * k := by ring
    rw [e, nesdma_run_add 6 (6 * k), ih (by omega),
      dma_six_step (m + 6 * k) P k (dma_buf ram P k) (by omega) hP (by omega) ram
        (dma_oam_after oam a0 ram P k) a0 cpu0]
    have hb : dma_buf ram P (k + 1) = ram ((P <<< 8 + k) &&& 0x7ff) := by simp [dma_buf]
    have ho : dma_oam_after oam a0 ram P (k + 1)
        = updFn (dma_oam_after oam a0 ram P k) ((a0 + k) % 256)
            (ram ((P <<< 8 + k) &&& 0x7ff)) := rfl
    rw [hb, ho]
    congr 1
    omega

/-- The complete transfer phase: 1536 ticks copy all 256 bytes and discard the
DMA job. -/
theorem dma_transfer_phase (m P : Nat) (hm : m % 6 = 4) (hP : P ≤ 0x1f)
    (ram oam : Nat → Nat) (a0 cpu0 : Nat) :
    NesDma.run 1536 ⟨m, some ⟨false, P <<< 8, 0, 0⟩, ram, oam, a0, cpu0⟩
      = ⟨m + 1536, none, ram, dma_oam_after oam a0 ram P 256, a0, cpu0⟩ := by
  have e : (1536 : Nat) = 6 + 6 * 255 := by norm_num
  rw [e, nesdma_run_add 6 (6 * 255), dma_window m P hm hP ram oam a0 cpu0 255 le_rfl,
    dma_six_step_last (m + 6 * 255) P (dma_buf ram P 255) (by omega) hP ram
      (dma_oam_after oam a0 ram P 255) a0 cpu0]
  have ho : dma_oam_after oam a0 ram P 256
      = updFn (dma_oam_after oam a0 ram P 255) ((a0 + 255) % 256)
          (ram ((P <<< 8 + 255) &&& 0x7ff)) := rfl
  rw [ho]

/-- Each of the 256 copied cells holds the bus byte read for it. -/
theorem dma_oam_after_spec (oam : Nat → Nat) (a0 : Nat) (ram : Nat → Nat) (P : Nat) :
    ∀ k, k ≤ 256 → ∀ i, i < k →
      dma_oam_after oam a0 ram P k ((a0 + i) % 256) = ram ((P <<< 8 + i) &&& 0x7ff) := by
  intro k
  induction k with
  | zero => intro _ i hi; omega
  | succ k ih =>
    intro hk i hi
    show updFn (dma_oam_after oam a0 ram P k) ((a0 + k) % 256)
      (ram ((P <<< 8 + k) &&& 0x7ff)) ((a0 + i) % 256) = _
    by_cases hik : i = k
    · subst hik
      simp [updFn]
    · have hne : ¬ (a0 + i) % 256 = (a0 + k) % 256 := by omega
      simp only [updFn, if_neg hne]
      exact ih (by omega) i (by omega)

/-- A single master tick never decreases the count of executed CPU cycles. -/
theorem nesdma_cpu_mono (s : NesDma) : s.cpu_cycles ≤ (NesDma.cycle s).cpu_cycles := by
  unfold NesDma.cycle
  by_cases hc : s.cycle_count % 3 = 0
  · rw [if_pos hc]
    rcases hd : s.dma_status with _ | d
    · simp
    · simp only [hd]
      split_ifs <;> simp
  · rw [if_neg hc]

/-- Running ticks never decreases the count of executed CPU cycles. -/
theorem nesdma_cpu_mono_run (n : Nat) (s : NesDma) :
    s.cpu_cycles ≤ (NesDma.run n s).cpu_cycles := by
  induction n generalizing s with
  | zero => exact le_rfl
  | succ n ih =>
    show s.cpu_cycles ≤ (NesDma.run n s.cycle).cpu_cycles
    exact le_trans (nesdma_cpu_mono s) (ih s.cycle)

/-- C2 (amended): after the CPU writes a work-RAM page `P ≤ 0x1f` to `0x4014`
during a CPU slot at an odd master cycle count `c0` (`c0 % 3 = 0` and
`c0 % 2 = 1`), the next 1542 master ticks — not 513 — complete the transfer:
the 256 bytes at bus addresses `(P << 8) + i` (work RAM, mirrored `& 0x7ff`)
are copied into OAM starting at the current OAM address modulo 256, the DMA
job is discarded when the transfer count wraps to 0, and the CPU executes zero
cycles throughout the window. -/
theorem c2_oam_dma_transfer (c0 P a0 cpu0 : Nat) (ram oam : Nat → Nat)
    (hodd : c0 % 2 = 1) (hslot : c0 % 3 = 0) (hP : P ≤ 0x1f) :
    NesDma.run 1542 ⟨c0 + 1, some (DmaStatus.new P), ram, oam, a0, cpu0⟩
      = ⟨c0 + 1543, none, ram, dma_oam_after oam a0 ram P 256, a0, cpu0⟩ ∧
    (∀ i, i < 256 →
      dma_oam_after oam a0 ram P 256 ((a0 + i) % 256) = ram ((P <<< 8 + i) &&& 0x7ff)) ∧
    (∀ n, n ≤ 1542 →
      (NesDma.run n ⟨c0 + 1, some (DmaStatus.new P), ram, oam, a0, cpu0⟩).cpu_cycles
        = cpu0) := by
  have hm : (c0 + 1) % 6 = 4 := by omega
  have hmain : NesDma.run 1542 ⟨c0 + 1, some (DmaStatus.new P), ram, oam, a0, cpu0⟩
      = ⟨c0 + 1543, none, ram, dma_oam_after oam a0 ram P 256, a0, cpu0⟩ := by
    have e : (1542 : Nat) = 1536 + 6 := by norm_num
    rw [e, nesdma_run_add 1536 6, dma_warmup (c0 + 1) P hm ram oam a0 cpu0,
      dma_transfer_phase (c0 + 1 + 6) P (by omega) hP ram oam a0 cpu0]
  refine ⟨hmain, fun i hi => dma_oam_after_spec oam a0 ram P 256 le_rfl i hi, ?_⟩
  intro n hn
  have h1 : cpu0 ≤ (NesDma.run n ⟨c0 + 1, some (DmaStatus.new P), ram, oam, a0,
      cpu0⟩).cpu_cycles :=
    nesdma_cpu_mono_run n ⟨c0 + 1, some (DmaStatus.new P), ram, oam, a0, cpu0⟩
  have h2 : (NesDma.run n ⟨c0 + 1, some (DmaStatus.new P), ram, oam, a0,
      cpu0⟩).cpu_cycles ≤ cpu0 := by
    have e : (1542 : Nat) = (1542 - n) + n := by omega
    have hmono := nesdma_cpu_mono_run (1542 - n)
      (NesDma.run n ⟨c0 + 1, some (DmaStatus.new P), ram, oam, a0, cpu0⟩)
    rw [← nesdma_run_add (1542 - n) n _, ← e, hmain] at hmono
    exact hmono
  omega

/-- Witness for C2 at the concrete inputs `c0 = 3`, `P = 2`, OAM address 0. -/
theorem c2_witness :
    NesDma.run 1542 ⟨4, some (DmaStatus.new 2), fun _ => 1, fun _ => 0, 0, 0⟩
      = ⟨1546, none, fun _ => 1, dma_oam_after (fun _ => 0) 0 (fun _ => 1) 2 256, 0, 0⟩ ∧
    (∀ i, i < 256 →
      dma_oam_after (fun _ => 0) 0 (fun _ => 1) 2 256 ((0 + i) % 256)
        = (fun _ => (1 : Nat)) ((2 <<< 8 + i) &&& 0x7ff)) ∧
    (∀ n, n ≤ 1542 →
      (NesDma.run n ⟨4, some (DmaStatus.new 2), fun _ => 1, fun _ => 0, 0, 0⟩).cpu_cycles
        = 0) :=
  c2_oam_dma_transfer 3 2 0 0 (fun _ => 1) (fun _ => 0) (by decide) (by decide) (by decide)

/-- C2 counterexample: the claim promises that the 513 master ticks following
the `0x4014` write (at odd master count 3, page 2) complete the copy into OAM
and discard the DMA job; in the code the DMA state machine advances only on
every third master tick, so after 513 ticks OAM cell 100 still holds its old
value 0 (the bus bytes all read 1) and the job is still in flight. -/
theorem c2_counterexample :
    ¬ ((∀ i, i < 256 →
          (NesDma.run 513 ⟨4, some (DmaStatus.new 2), fun _ => 1, fun _ => 0, 0, 0⟩).oam
              ((0 + i) % 256)
            = (fun _ => (1 : Nat)) ((2 <<< 8 + i) &&& 0x7ff)) ∧
       (NesDma.run 513 ⟨4, some (DmaStatus.new 2), fun _ => 1, fun _ => 0, 0, 0⟩).dma_status
         = none) := by
  intro h
  have hrun : NesDma.run 513 ⟨4, some (DmaStatus.new 2), fun _ => 1, fun _ => 0, 0, 0⟩
      = ⟨4 + 6 + 6 * 84 + 1 + 1 + 1,
          some ⟨false, 2 <<< 8, 84, (fun _ => (1 : Nat)) ((2 <<< 8 + 84) &&& 0x7ff)⟩,
          fun _ => 1, dma_oam_after (fun _ => 0) 0 (fun _ => 1) 2 84, 0, 0⟩ := by
    have e : (513 : Nat) = 3 + (6 * 84 + 6) := by norm_num
    rw [e, nesdma_run_add 3 (6 * 84 + 6), nesdma_run_add (6 * 84) 6,
      dma_warmup 4 2 (by norm_num) (fun _ => 1) (fun _ => 0) 0 0,
      dma_window (4 + 6) 2 (by norm_num) (by norm_num) (fun _ => 1) (fun _ => 0) 0 0 84
        (by norm_num)]
    have t1 := dma_cycle_idle (4 + 6 + 6 * 84)
      (some ⟨false, 2 <<< 8, 84, dma_buf (fun _ => 1) 2 84⟩) (fun _ => 1)
      (dma_oam_after (fun _ => 0) 0 (fun _ => 1) 2 84) 0 0 (by norm_num)
    have t2 := dma_cycle_idle (4 + 6 + 6 * 84 + 1)
      (some ⟨false, 2 <<< 8, 84, dma_buf (fun _ => 1) 2 84⟩) (fun _ => 1)
      (dma_oam_after (fun _ => 0) 0 (fun _ => 1) 2 84) 0 0 (by norm_num)
    have t3 := dma_cycle_read (4 + 6 + 6 * 84 + 1 + 1)
      ⟨false, 2 <<< 8, 84, dma_buf (fun _ => 1) 2 84⟩ (fun _ => 1)
      (dma_oam_after (fun _ => 0) 0 (fun _ => 1) 2 84) 0 0 (by norm_num) (by norm_num) rfl
      (by decide)
    show NesDma.run 2 (NesDma.cycle ⟨4 + 6 + 6 * 84,
      some ⟨false, 2 <<< 8, 84, dma_buf (fun _ => 1) 2 84⟩, fun _ => 1,
      dma_oam_after (fun _ => 0) 0 (fun _ => 1) 2 84, 0, 0⟩) = _
    rw [t1]
    show NesDma.run 1 (NesDma.cycle ⟨4 + 6 + 6 * 84 + 1,
      some ⟨false, 2 <<< 8, 84, dma_buf (fun _ => 1) 2 84⟩, fun _ => 1,
      dma_oam_after (fun _ => 0) 0 (fun _ => 1) 2 84, 0, 0⟩) = _
    rw [t2]
    show NesDma.run 0 (NesDma.cycle ⟨4 + 6 + 6 * 84 + 1 + 1,
      some ⟨false, 2 <<< 8, 84, dma_buf (fun _ => 1) 2 84⟩, fun _ => 1,
      dma_oam_after (fun _ => 0) 0 (fun _ => 1) 2 84, 0, 0⟩) = _
    rw [t3]
    exact rfl
  rw [hrun] at h
  exact absurd h.2 (by simp)
